import Mathlib

/-!
Verification development for the policy-RAG core of the repository
(`app/services/rag`, `app/services/llm`, `app/services/vector`,
`app/services/ingestion`, `app/apis/v1/chat`).

Python strings manipulated character-by-character (the PDF parser and
chunker) are modelled as `List Char`; opaque strings (names, messages)
as `String`; floating-point similarity scores as `ℚ` (all thresholds in
the source are exact decimals, so comparisons agree); database ids as
`Nat`/`Int`.  Fallible calls return `Except`.  External collaborators
(the Gemini client, the Qdrant client, the SQLAlchemy session) are
modelled as explicit function parameters or explicit state, mirroring
the dependency-injected service objects of the source.
-/

set_option autoImplicit false

namespace RagSpec

/-! ### Character classes and small string helpers (Python semantics)

`isPySpace` models Python's `str.strip()` / regex `\s` class on the
ASCII range (Python additionally treats some rare Unicode whitespace as
`\s`; no input in this development uses those). -/

def isPySpace (c : Char) : Bool :=
  c = ' ' || c = '\t' || c = '\n' || c = '\r' || c = '\x0b' || c = '\x0c'

def isDigit09 (c : Char) : Bool :=
  '0' ≤ c && c ≤ '9'

def isUpperAZ (c : Char) : Bool :=
  'A' ≤ c && c ≤ 'Z'

/-- Python slice `s[a:b]` on a character list. -/
def slice (l : List Char) (a b : Nat) : List Char :=
  (l.drop a).take (b - a)

/-- Python `str.strip()`: drop whitespace from both ends. -/
def strip (l : List Char) : List Char :=
  ((l.dropWhile isPySpace).reverse.dropWhile isPySpace).reverse

/-- Python `str.split()`: split on whitespace runs, dropping empty parts.
Used only for the `word_count` metadata field. -/
def wordCount (l : List Char) : Nat :=
  (l.splitOnP (fun c => isPySpace c)).countP (fun w => !w.isEmpty)

end RagSpec

namespace RagSpec

/-! ### `calculate_confidence` (app/services/rag/retrieval_service.py)

`RetrievedChunk` is the dataclass of `retrieval_service.py`. -/

structure RetrievedChunk where
  chunk_text : String
  policy_id : Int
  policy_name : String
  policy_version : String
  section_name : Option String
  chunk_index : Nat
  relevance_score : ℚ
  embedding_id : String
deriving DecidableEq, Repr

/-- `max(c.relevance_score for c in chunks)` — maximum of a non-empty list
(the empty case is unreachable behind the `if not chunks` guard; we return 0). -/
def maxScore : List RetrievedChunk → ℚ
  | [] => 0
  | c :: rest => rest.foldl (fun a b => max a b.relevance_score) c.relevance_score

/-- `sum(c.relevance_score for c in chunks) / len(chunks)`. -/
def meanScore (chunks : List RetrievedChunk) : ℚ :=
  (chunks.map (·.relevance_score)).sum / (chunks.length : ℚ)

/-- `RAGRetrievalService.calculate_confidence`. -/
def calculate_confidence (chunks : List RetrievedChunk) : String :=
  if chunks.isEmpty then
    "low"
  else
    let avg_score := meanScore chunks
    let max_score := maxScore chunks
    if max_score > (0.85 : ℚ) ∧ avg_score > (0.75 : ℚ) then
      "high"
    else if max_score > (0.70 : ℚ) ∧ avg_score > (0.65 : ℚ) then
      "medium"
    else
      "low"

end RagSpec

namespace RagSpec

/-! ### Claim theorems: confidence scoring -/

/-- C1 counterexample: the claim `confidence([]) == "none"` is false on the
code — `calculate_confidence` returns `"low"` for the empty chunk list, not
`"none"`. -/
theorem calculate_confidence_empty_not_none :
    calculate_confidence [] ≠ "none" := by
  decide

/-- C1 (amended): applied to an empty set of retrieved chunks,
`calculate_confidence` returns the tier `"low"`; the tier `"none"` reported
for empty retrieval is produced by the answer composer, not by this
function. -/
theorem calculate_confidence_empty_eq_low :
    calculate_confidence [] = "low" := by
  decide

/-- C5: for every non-empty set of retrieved chunks the tier is `"high"` iff
max score > 0.85 and mean score > 0.75; otherwise `"medium"` iff max score
> 0.70 and mean score > 0.65; otherwise `"low"`. -/
theorem calculate_confidence_tiers (chunks : List RetrievedChunk)
    (hne : chunks ≠ []) :
    (calculate_confidence chunks = "high" ↔
      maxScore chunks > (0.85 : ℚ) ∧ meanScore chunks > (0.75 : ℚ)) ∧
    (calculate_confidence chunks = "medium" ↔
      ¬(maxScore chunks > (0.85 : ℚ) ∧ meanScore chunks > (0.75 : ℚ)) ∧
        (maxScore chunks > (0.70 : ℚ) ∧ meanScore chunks > (0.65 : ℚ))) ∧
    (calculate_confidence chunks = "low" ↔
      ¬(maxScore chunks > (0.85 : ℚ) ∧ meanScore chunks > (0.75 : ℚ)) ∧
      ¬(maxScore chunks > (0.70 : ℚ) ∧ meanScore chunks > (0.65 : ℚ))) := by
  have hne' : ¬ chunks.isEmpty := by
    cases chunks with
    | nil => exact absurd rfl hne
    | cons c rest => simp
  unfold calculate_confidence
  rw [if_neg hne']
  by_cases h1 : maxScore chunks > (0.85 : ℚ) ∧ meanScore chunks > (0.75 : ℚ)
  · rw [if_pos h1]
    refine ⟨by simp [h1], ?_, ?_⟩
    · constructor
      · intro h; exact absurd h (by decide)
      · rintro ⟨hn, _⟩; exact absurd h1 hn
    · constructor
      · intro h; exact absurd h (by decide)
      · rintro ⟨hn, _⟩; exact absurd h1 hn
  · rw [if_neg h1]
    by_cases h2 : maxScore chunks > (0.70 : ℚ) ∧ meanScore chunks > (0.65 : ℚ)
    · rw [if_pos h2]
      refine ⟨?_, by simp [h1, h2], ?_⟩
      · constructor
        · intro h; exact absurd h (by decide)
        · intro h; exact absurd h h1
      · constructor
        · intro h; exact absurd h (by decide)
        · rintro ⟨_, hn⟩; exact absurd h2 hn
    · rw [if_neg h2]
      refine ⟨?_, ?_, by simp [h1, h2]⟩
      · constructor
        · intro h; exact absurd h (by decide)
        · intro h; exact absurd h h1
      · constructor
        · intro h; exact absurd h (by decide)
        · rintro ⟨_, hc⟩; exact absurd hc h2

/-- A concrete chunk with relevance score 0.9 used in witnesses. -/
def chunk09 : RetrievedChunk :=
  ⟨"text", 1, "Policy", "v1", none, 0, (0.9 : ℚ), "emb-1"⟩

/-- C5 witness: a singleton list with score 0.9 satisfies the `"high"`
branch of the tier characterization. -/
theorem calculate_confidence_tiers_witness :
    calculate_confidence [chunk09] = "high" :=
  (calculate_confidence_tiers [chunk09] (by decide)).1.mpr (by
    constructor
    · show maxScore [chunk09] > (0.85 : ℚ)
      norm_num [maxScore, chunk09]
    · show meanScore [chunk09] > (0.75 : ℚ)
      norm_num [meanScore, chunk09])

end RagSpec

namespace RagSpec

/-! ### `GeminiService` (app/services/llm/gemini_service.py)

The remote Gemini client is modelled by explicit outcome parameters: the
service object holds an injected client, and each call either produces a
response or raises inside the client call. -/

/-- Outcome of one `client.models.generate_content` call: either a response
with the given text, or an exception raised by the client. -/
inductive GenOutcome where
  | ok (text : String)
  | fail
deriving DecidableEq, Repr

def errorFallbackMessage : String :=
  "I encountered an error processing your question. Please contact your manager or on-call coordinator for assistance."

def emptyResponseMessage : String :=
  "I couldn't generate a response. Please try again or contact your manager."

/-- `GeminiService.generate_chat_response`.  `initialized` models
`self.client` being set; the uninitialized `RuntimeError` is raised before
the `try` block and propagates (`Except.error`).  Any exception inside the
`try` block is caught and converted to the fallback string — the function
itself then returns normally. -/
def generate_chat_response (initialized : Bool) (o : GenOutcome) :
    Except Unit String :=
  if !initialized then
    Except.error ()
  else
    Except.ok (match o with
      | GenOutcome.ok t => if t = "" then emptyResponseMessage else t
      | GenOutcome.fail => errorFallbackMessage)

/-- Outcome of one `client.models.generate_content_stream` iteration: the
fragment texts produced, and whether the stream raised afterwards. -/
structure StreamOutcome where
  frags : List String
  failed : Bool
deriving DecidableEq, Repr

/-- `GeminiService.generate_chat_response_stream`: yields every non-empty
fragment (`if chunk.text`); an exception during streaming is caught by the
generator's own handler, which yields the fallback message as a final
fragment.  The uninitialized `RuntimeError` is raised before the `try` and
propagates to the iterating caller. -/
def generate_chat_response_stream (initialized : Bool) (o : StreamOutcome) :
    Except Unit (List String) :=
  if !initialized then
    Except.error ()
  else
    Except.ok
      (o.frags.filter (fun s => s ≠ "") ++
        if o.failed then [errorFallbackMessage] else [])

/-- Errors raised by `GeminiService.generate_embeddings_batch`. -/
inductive BatchEmbedError where
  | notInitialized
  /-- `ValueError(f"No embeddings returned for batch {i}")`. -/
  | noEmbeddings (batchStart : Nat)
  /-- `NameError: name 'emb' is not defined` — the list comprehension
  `[emb.values for emb.values in response.embeddings]` assigns to the
  attribute `values` of the *unbound* name `emb`, so its first iteration
  raises `NameError`. -/
  | nameError
deriving DecidableEq, Repr

/-- `GeminiService.generate_embeddings_batch`.  `apiBatch` models one
`client.models.embed_content` call returning `response.embeddings` (a list
of embedding vectors).  The loop `for i in range(0, len(texts), batch_size)`
is modelled by iterating over the batch numbers; `batch_size` is assumed
positive as in every call site (Python `range` raises on step 0). -/
def generate_embeddings_batch (initialized : Bool)
    (apiBatch : List String → List (List ℚ))
    (texts : List String) (batch_size : Nat) :
    Except BatchEmbedError (List (List ℚ)) :=
  if !initialized then
    Except.error BatchEmbedError.notInitialized
  else
    let numBatches := (texts.length + batch_size - 1) / batch_size
    (List.range numBatches).foldl
      (fun acc k =>
        match acc with
        | Except.error e => Except.error e
        | Except.ok _ =>
          let i := k * batch_size
          let batch := (texts.drop i).take batch_size
          let resp := apiBatch batch
          if resp.isEmpty then
            Except.error (BatchEmbedError.noEmbeddings i)
          else
            -- the comprehension building `batch_embeddings` raises NameError
            -- on its first iteration, inside the `try`, hence re-raised
            Except.error BatchEmbedError.nameError)
      (Except.ok [])

end RagSpec

namespace RagSpec

/-! ### Claim theorems: batched embedding (C4) -/

/-- C4 (code bug): on the concrete input `texts = ["hello"]`,
`batch_size = 100`, with an initialized client and a well-behaved provider
returning one vector per text, `generate_embeddings_batch` does not return
one vector per input — it raises `NameError` from the comprehension
`[emb.values for emb.values in response.embeddings]` (unbound name `emb`). -/
theorem generate_embeddings_batch_raises_nameError :
    generate_embeddings_batch true (fun batch => batch.map (fun _ => [(1 : ℚ)]))
      ["hello"] 100 = Except.error BatchEmbedError.nameError := rfl

end RagSpec

namespace RagSpec

/-! ### `QdrantService.search_similar` (app/services/vector/qdrant_service.py) -/

/-- The only filter shape built by `search_similar`: a `MatchAny` condition
on the `policy_id` payload key. -/
structure QFilter where
  policyIdAny : List Int
deriving DecidableEq, Repr

/-- Payload stored with each point.  `upsert_vectors` always writes these
five keys plus free-form metadata, so the payload dict is modelled as a
typed record with an `extra` association list. -/
structure Payload where
  policy_id : Int
  chunk_text : String
  chunk_index : Nat
  section_name : Option String
  extra : List (String × String)
deriving DecidableEq, Repr

/-- One raw search result from the Qdrant client. -/
structure ScoredPoint where
  id : String
  score : ℚ
  payload : Payload
deriving DecidableEq, Repr

/-- One formatted entry of the list returned by `search_similar`. -/
structure FormattedHit where
  embedding_id : String
  score : ℚ
  policy_id : Int
  chunk_text : String
  chunk_index : Nat
  section_name : Option String
  metadata : List (String × String)
deriving DecidableEq, Repr

/-- `QdrantService.search_similar`.  `clientSearch` models
`self.client.search(collection_name, query_vector, limit, score_threshold,
query_filter, with_payload=True)`.  The filter is built only under
`if policy_ids:` — Python truthiness, so both `None` and the empty list
leave `query_filter = None`. -/
def search_similar (clientSearch : List ℚ → Nat → ℚ → Option QFilter → List ScoredPoint)
    (query_embedding : List ℚ) (top_k : Nat) (score_threshold : ℚ)
    (policy_ids : Option (List Int)) : List FormattedHit :=
  let query_filter : Option QFilter :=
    match policy_ids with
    | some (x :: xs) => some ⟨x :: xs⟩
    | _ => none
  let results := clientSearch query_embedding top_k score_threshold query_filter
  results.map (fun r =>
    ⟨r.id, r.score, r.payload.policy_id, r.payload.chunk_text,
      r.payload.chunk_index, r.payload.section_name, r.payload.extra⟩)

/-- C10: passing `policy_ids = []` applies no id filter at all — for every
client, query embedding, `top_k` and threshold, `search_similar` with the
empty list issues exactly the same unfiltered search (filter `None`) as
`policy_ids = None`, and returns the same results. -/
theorem search_similar_empty_ids_unfiltered
    (clientSearch : List ℚ → Nat → ℚ → Option QFilter → List ScoredPoint)
    (query_embedding : List ℚ) (top_k : Nat) (score_threshold : ℚ) :
    search_similar clientSearch query_embedding top_k score_threshold (some []) =
      search_similar clientSearch query_embedding top_k score_threshold none := rfl

end RagSpec

namespace RagSpec

/-! ### `RAGChatService` (app/apis/v1/chat/rag_service.py)

`format_context` / `format_sources` come from `retrieval_service.py` and
are used by the composer.  Prompt-template loading and `.format` produce
the strings fed to generation; the generated text itself is the
`GenOutcome` / `StreamOutcome` parameter, so template contents do not
influence the modelled results.  `_log_query` never raises (it catches
internally) and does not affect the returned value, so it is omitted. -/

/-- Round-half-to-even at 3 decimals, modelling Python's `round(x, 3)`
(the source applies it to similarity scores, here exact rationals). -/
def round3 (q : ℚ) : ℚ :=
  let scaled := q * 1000
  let f : ℤ := ⌊scaled⌋
  let r := scaled - (f : ℚ)
  let n : ℤ :=
    if r < 1/2 then f
    else if r > 1/2 then f + 1
    else if Even f then f else f + 1
  (n : ℚ) / 1000

/-- One source citation dict built by `format_sources`; the dict keys are
`policy`, `version`, `section` (field `section_label` here — `section` is a
Lean keyword) and `relevance_score`. -/
structure SourceCitation where
  policy : String
  version : String
  section_label : String
  relevance_score : ℚ
deriving DecidableEq, Repr

/-- `RAGRetrievalService.format_sources`. -/
def format_sources (chunks : List RetrievedChunk) : List SourceCitation :=
  chunks.map (fun c =>
    ⟨c.policy_name, c.policy_version,
      (match c.section_name with
        | some s => if s = "" then "General" else s
        | none => "General"),
      round3 c.relevance_score⟩)

/-- `RAGRetrievalService.format_context`. -/
def format_context (chunks : List RetrievedChunk) : String :=
  if chunks.isEmpty then
    "No relevant policy information found."
  else
    String.intercalate "\n---\n\n"
      (chunks.enum.map (fun p =>
        "[Source " ++ toString (p.1 + 1) ++ "] " ++ p.2.policy_name ++
          " (v" ++ p.2.policy_version ++ ")" ++
          (match p.2.section_name with
            | some s => if s = "" then "" else " - " ++ s
            | none => "") ++
          "\n" ++ p.2.chunk_text ++ "\n"))

def escalationMessage : String :=
  "I cannot find this in our current policies. Please escalate to your manager or on-call coordinator for guidance."

/-- The dictionary returned by `RAGChatService.answer_question`. -/
structure AnswerResult where
  answer : String
  sources : List SourceCitation
  confidence : String
  chunks_retrieved : Nat
deriving DecidableEq, Repr

/-- `RAGChatService.answer_question`.  `retr` is the outcome of
`retrieve_relevant_chunks` (which re-raises failures); `initialized` and
`gen` parameterize the Gemini call as in `generate_chat_response`.  The
returned `Bool` records whether the generation capability was invoked.
Any exception reaching the method body (retrieval failure, or the
uninitialized-client `RuntimeError` propagating out of
`generate_chat_response`) is caught by the catch-all handler, which
returns the safe fallback with confidence `"error"`. -/
def answer_question (retr : Except Unit (List RetrievedChunk))
    (initialized : Bool) (gen : GenOutcome) : AnswerResult × Bool :=
  match retr with
  | Except.error _ => (⟨errorFallbackMessage, [], "error", 0⟩, false)
  | Except.ok chunks =>
    if chunks.isEmpty then
      (⟨escalationMessage, [], "none", 0⟩, false)
    else
      match generate_chat_response initialized gen with
      | Except.error _ => (⟨errorFallbackMessage, [], "error", 0⟩, true)
      | Except.ok answer =>
        (⟨answer, format_sources chunks, calculate_confidence chunks,
          chunks.length⟩, true)

/-- The reserved in-band marker prefixing the streaming sources sidecar. -/
def sourcesMarker : String := "\n\n__SOURCES__:"

/-- The final sidecar fragment
`f'\n\n__SOURCES__:{{"sources":{sources},"confidence":"{confidence}"}}'`.
`renderSources` stands for Python's interpolation (`repr`) of the list of
source dicts, which is not modelled further. -/
def sidecarFragment (renderSources : List SourceCitation → String)
    (chunks : List RetrievedChunk) : String :=
  sourcesMarker ++ "\x7b\"sources\":" ++ renderSources (format_sources chunks) ++
    ",\"confidence\":\"" ++ calculate_confidence chunks ++ "\"\x7d"

/-- `RAGChatService.answer_question_stream`: the list of yielded fragments
plus whether generation was invoked.  An exception reaching the generator
body (retrieval failure, or the uninitialized-client error surfacing at the
first iteration of the inner generator) is caught and a single fallback
fragment is yielded. -/
def answer_question_stream (renderSources : List SourceCitation → String)
    (retr : Except Unit (List RetrievedChunk)) (initialized : Bool)
    (so : StreamOutcome) : List String × Bool :=
  match retr with
  | Except.error _ => ([errorFallbackMessage], false)
  | Except.ok chunks =>
    if chunks.isEmpty then
      ([escalationMessage], false)
    else
      match generate_chat_response_stream initialized so with
      | Except.error _ => ([errorFallbackMessage], true)
      | Except.ok frags => (frags ++ [sidecarFragment renderSources chunks], true)

/-- `listBegins p l` : `p` is a prefix of `l` (plain Boolean recursion). -/
def listBegins : List Char → List Char → Bool
  | [], _ => true
  | _ :: _, [] => false
  | p :: ps, c :: cs => p = c && listBegins ps cs

/-- `strBegins p s` : string `p` is a prefix of string `s`. -/
def strBegins (p s : String) : Bool := listBegins p.toList s.toList

end RagSpec

namespace RagSpec

/-! ### Claim theorems: answer composer (C2, C3) -/

/-- Helper: the confidence tier of the singleton score-0.9 retrieval
result is `"high"`. -/
theorem conf_chunk09_high : calculate_confidence [chunk09] = "high" := by
  have h1 : maxScore [chunk09] > (0.85 : ℚ) ∧ meanScore [chunk09] > (0.75 : ℚ) := by
    constructor
    · norm_num [maxScore, chunk09]
    · norm_num [meanScore, chunk09]
  unfold calculate_confidence
  simp only [List.isEmpty_cons, Bool.false_eq_true, if_false]
  rw [if_pos h1]

/-- C2 counterexample: with a non-empty retrieval result (one chunk of score
0.9) and a generation call that fails inside the Gemini service's `try`
block, `answer_question` returns the fixed error-fallback answer text but
reports confidence `"high"`, not `"error"` — the claimed
`confidence == "error"` is false. -/
theorem answer_question_genfail_not_error_confidence :
    (answer_question (Except.ok [chunk09]) true GenOutcome.fail).1.confidence ≠ "error" ∧
    (answer_question (Except.ok [chunk09]) true GenOutcome.fail).1.answer =
      errorFallbackMessage := by
  have hconf : (answer_question (Except.ok [chunk09]) true GenOutcome.fail).1.confidence =
      calculate_confidence [chunk09] := rfl
  constructor
  · rw [hconf, conf_chunk09_high]; decide
  · rfl

/-- C2 (amended): a failure raised by the generation capability inside the
generation service is caught there and converted to the fixed error-fallback
answer text, and `answer_question` returns normally (never re-raises); the
confidence it reports is the retrieval-based tier, not `"error"`.
Confidence `"error"` is reported exactly when an exception reaches
`answer_question` itself (e.g. a retrieval failure). -/
theorem answer_question_generation_failure (chunks : List RetrievedChunk)
    (hne : chunks ≠ []) :
    (answer_question (Except.ok chunks) true GenOutcome.fail).1.answer =
        errorFallbackMessage ∧
    (answer_question (Except.ok chunks) true GenOutcome.fail).1.confidence =
        calculate_confidence chunks ∧
    (∀ gen, answer_question (Except.error ()) true gen =
        (⟨errorFallbackMessage, [], "error", 0⟩, false)) := by
  cases chunks with
  | nil => exact absurd rfl hne
  | cons c rest => exact ⟨rfl, rfl, fun _ => rfl⟩

/-- C2 witness: the amended statement instantiated at the concrete
singleton retrieval result `[chunk09]`. -/
theorem answer_question_generation_failure_witness :
    (answer_question (Except.ok [chunk09]) true GenOutcome.fail).1.answer =
        errorFallbackMessage ∧
    (answer_question (Except.ok [chunk09]) true GenOutcome.fail).1.confidence =
        calculate_confidence [chunk09] ∧
    (∀ gen, answer_question (Except.error ()) true gen =
        (⟨errorFallbackMessage, [], "error", 0⟩, false)) :=
  answer_question_generation_failure [chunk09] (by decide)

/-- C3 counterexample: on empty retrieval the streaming path yields exactly
the escalation message and nothing else — in particular no fragment starts
with the sources sidecar marker, so no confidence (`"none"` or otherwise)
is reported on the stream, contradicting the claim that confidence is
reported as `"none"` in both paths. -/
theorem answer_question_stream_empty_reports_no_confidence :
    answer_question_stream (fun _ => "") (Except.ok []) true ⟨[], false⟩ =
        ([escalationMessage], false) ∧
    (answer_question_stream (fun _ => "") (Except.ok []) true
        ⟨[], false⟩).1.filter (fun s => strBegins sourcesMarker s) = [] := by
  exact ⟨rfl, by decide⟩

/-- C3 (amended): if retrieval returns zero chunks, both paths return
exactly the fixed escalation message without invoking generation; the
non-streaming path reports confidence `"none"`, while the streaming path
yields only the escalation text and reports no confidence (no sources
sidecar) at all. -/
theorem answer_empty_retrieval_short_circuit
    (renderSources : List SourceCitation → String) (initialized : Bool)
    (so : StreamOutcome) (gen : GenOutcome) :
    answer_question (Except.ok []) initialized gen =
        (⟨escalationMessage, [], "none", 0⟩, false) ∧
    answer_question_stream renderSources (Except.ok []) initialized so =
        ([escalationMessage], false) :=
  ⟨rfl, rfl⟩

end RagSpec

namespace RagSpec

/-! ### `RAGRetrievalService.retrieve_relevant_chunks`
(app/services/rag/retrieval_service.py)

Collaborators are injected: `activeIds` is the result of the
`select(Policy.id).where(Policy.status == "active")` query, `searchFn`
models `self.qdrant.search_similar`, `getPolicy` models
`self.db.get(Policy, policy_id)`, and `question_embedding` is the value
produced by `self.gemini.generate_embedding(question)`. -/

/-- A `Policy` row as read back for enrichment. -/
structure PolicyRec where
  id : Int
  name : String
  version : String
deriving DecidableEq, Repr

/-- The step-4 enrichment loop: hits whose parent policy cannot be
resolved are skipped. -/
def enrichHits (getPolicy : Int → Option PolicyRec) :
    List FormattedHit → List RetrievedChunk
  | [] => []
  | h :: t =>
    match getPolicy h.policy_id with
    | none => enrichHits getPolicy t
    | some p =>
      ⟨h.chunk_text, p.id, p.name, p.version, h.section_name, h.chunk_index,
        h.score, h.embedding_id⟩ :: enrichHits getPolicy t

/-- `RAGRetrievalService.retrieve_relevant_chunks`.  The returned `Bool`
records whether a similarity search was issued on the vector store. -/
def retrieve_relevant_chunks (activeIds : List Int)
    (searchFn : List ℚ → Nat → ℚ → Option (List Int) → List FormattedHit)
    (getPolicy : Int → Option PolicyRec) (question_embedding : List ℚ)
    (top_k : Nat) (score_threshold : ℚ) (active_only : Bool) :
    List RetrievedChunk × Bool :=
  let policy_ids : Option (List Int) :=
    if active_only then some activeIds else none
  if active_only ∧ activeIds = [] then
    ([], false)
  else
    let search_results :=
      searchFn question_embedding top_k score_threshold policy_ids
    if search_results.isEmpty then
      ([], true)
    else
      (enrichHits getPolicy search_results, true)

end RagSpec

namespace RagSpec

/-! ### Claim theorems: retrieval short-circuit (C6) -/

/-- C6: with `active_only = True` and an empty set of eligible (active)
document identifiers, `retrieve_relevant_chunks` returns the empty list
immediately and issues no similarity search on the vector store — for
every search function, policy lookup, query embedding, `top_k` and
threshold. -/
theorem retrieve_relevant_chunks_no_active_short_circuit
    (searchFn : List ℚ → Nat → ℚ → Option (List Int) → List FormattedHit)
    (getPolicy : Int → Option PolicyRec) (question_embedding : List ℚ)
    (top_k : Nat) (score_threshold : ℚ) :
    retrieve_relevant_chunks [] searchFn getPolicy question_embedding
      top_k score_threshold true = ([], false) := by
  unfold retrieve_relevant_chunks
  rw [if_pos ⟨rfl, rfl⟩]

end RagSpec

namespace RagSpec

/-! ### `chunk_text` (app/services/ingestion/pdf_parser.py)

Text is a `List Char`; a section span is `(section_name, start, end)` as
produced by `detect_sections`.  The `while` loop over one section is a
fuel recursion; the fuel `length + 1` is sufficient whenever
`chunk_size > overlap` (the cursor then advances by at least one each
iteration — with `chunk_size ≤ overlap` the Python loop does not
terminate, which the model maps to fuel exhaustion). -/

/-- `ChunkMetadata` dataclass. -/
structure ChunkMetadata where
  section_name : Option (List Char)
  page_number : Nat
  chunk_index : Nat
  word_count : Nat
  char_count : Nat
deriving DecidableEq, Repr

/-- `re.search(r"[.!?]\s", w)` on a window `w`: offset just past the first
`[.!?]` followed by whitespace (the regex `end()`), if any. -/
def findSentenceEnd : List Char → Option Nat
  | c1 :: c2 :: rest =>
    if (c1 = '.' || c1 = '!' || c1 = '?') && isPySpace c2 then some 2
    else (findSentenceEnd (c2 :: rest)).map (· + 1)
  | _ => none

/-- The mid-sentence extension: search the next 100 characters past
`chunk_end` for a sentence boundary and extend `chunk_end` to it. -/
def extendToSentence (stext : List Char) (chunk_end : Nat) : Nat :=
  match findSentenceEnd ((stext.drop chunk_end).take 100) with
  | some e => chunk_end + e
  | none => chunk_end

/-- One section's `while position < len(section_text)` loop.  Returns the
emitted (stripped) chunk texts in order, together with the *stop cursor*:
the position below which the section's text has been covered by emitted
windows (`section_text.length` when the loop consumed the whole section,
the cursor of the dropped trailing fragment when the `< 100` check broke
out, `pos` itself on fuel exhaustion). -/
def chunkLoop (stext : List Char) (chunk_size overlap : Nat) :
    Nat → Nat → List (List Char) × Nat
  | 0, pos => ([], pos)
  | fuel + 1, pos =>
    if pos < stext.length then
      let ce0 := min (pos + chunk_size) stext.length
      let ce := if ce0 < stext.length then extendToSentence stext ce0 else ce0
      let chunk := strip (slice stext pos ce)
      if chunk.length < 100 then
        ([], pos)
      else
        let pos' := pos + (chunk_size - overlap)
        if stext.length ≤ pos' then
          ([chunk], stext.length)
        else
          let r := chunkLoop stext chunk_size overlap fuel pos'
          (chunk :: r.1, r.2)
    else
      ([], stext.length)

/-- All chunks of one section, with the stop cursor. -/
def chunkSectionTexts (stext : List Char) (chunk_size overlap : Nat) :
    List (List Char) × Nat :=
  chunkLoop stext chunk_size overlap (stext.length + 1) 0

/-- Attach `ChunkMetadata` to a section's chunks: the running global
`chunk_index` is threaded through, `page_number` is always 0, word and
character counts are computed from the chunk text. -/
def attachMeta (name : List Char) : Nat →
    List (List Char) → List (List Char × ChunkMetadata)
  | _, [] => []
  | counter, c :: rest =>
    (c, ⟨some name, 0, counter, wordCount c, c.length⟩) ::
      attachMeta name (counter + 1) rest

/-- A detected section span: `(section_name, start_pos, end_pos)`. -/
abbrev SectionSpan := List Char × Nat × Nat

/-- The `for section_name, section_start, section_end in sections` loop of
`chunk_text`, threading the global chunk counter; empty (after `strip`)
sections are skipped. -/
def chunkTextAux (text : List Char) (chunk_size overlap : Nat) :
    List SectionSpan → Nat → List (List Char × ChunkMetadata)
  | [], _ => []
  | (name, s, e) :: rest, counter =>
    let section_text := strip (slice text s e)
    if section_text.isEmpty then
      chunkTextAux text chunk_size overlap rest counter
    else
      let cs := (chunkSectionTexts section_text chunk_size overlap).1
      attachMeta name counter cs ++
        chunkTextAux text chunk_size overlap rest (counter + cs.length)

/-- The `if not sections:` default of `chunk_text`: both `None` and the
empty list are replaced by the single synthetic section
`("Document", 0, len(text))`. -/
def resolvedSections (text : List Char) (sections : Option (List SectionSpan)) :
    List SectionSpan :=
  match sections with
  | none => [("Document".toList, 0, text.length)]
  | some [] => [("Document".toList, 0, text.length)]
  | some (s :: ss) => s :: ss

/-- `chunk_text(text, sections, chunk_size, overlap)`. -/
def chunk_text (text : List Char) (sections : Option (List SectionSpan))
    (chunk_size overlap : Nat) : List (List Char × ChunkMetadata) :=
  chunkTextAux text chunk_size overlap (resolvedSections text sections) 0

end RagSpec

namespace RagSpec

/-! ### Claim theorems: chunk indices (C7) -/

theorem attachMeta_indices (name : List Char) (cs : List (List Char)) :
    ∀ k, (attachMeta name k cs).map (fun p => p.2.chunk_index) =
      List.range' k cs.length := by
  induction cs with
  | nil => intro k; simp [attachMeta]
  | cons c rest ih =>
    intro k
    simp only [attachMeta, List.map_cons, List.length_cons, List.range'_succ]
    exact congrArg (k :: ·) (ih (k + 1))

theorem attachMeta_length (name : List Char) (cs : List (List Char)) :
    ∀ k, (attachMeta name k cs).length = cs.length := by
  induction cs with
  | nil => intro k; simp [attachMeta]
  | cons c rest ih => intro k; simp [attachMeta, ih]

theorem chunkTextAux_indices (text : List Char) (chunk_size overlap : Nat)
    (secs : List SectionSpan) :
    ∀ k, (chunkTextAux text chunk_size overlap secs k).map
        (fun p => p.2.chunk_index) =
      List.range' k (chunkTextAux text chunk_size overlap secs k).length := by
  induction secs with
  | nil => intro k; simp [chunkTextAux]
  | cons sec rest ih =>
    intro k
    obtain ⟨name, s, e⟩ := sec
    by_cases hemp : (strip (slice text s e)).isEmpty
    · simpa [chunkTextAux, hemp] using ih k
    · have hmain : chunkTextAux text chunk_size overlap ((name, s, e) :: rest) k =
          attachMeta name k
              ((chunkSectionTexts (strip (slice text s e)) chunk_size overlap).1) ++
            chunkTextAux text chunk_size overlap rest
              (k + ((chunkSectionTexts (strip (slice text s e))
                chunk_size overlap).1).length) := by
        simp [chunkTextAux, hemp]
      rw [hmain, List.map_append, attachMeta_indices, ih, List.length_append,
        attachMeta_length, List.range'_append_1]
      congr 1
      exact Nat.add_comm _ _

/-- C7: for every input text, section list and size parameters, the chunk
indices attached to the emitted chunks are exactly `0, 1, 2, …` in emission
order — contiguous and gap-free across the whole document, monotonically
increasing across section boundaries and never reset per section. -/
theorem chunk_text_indices_contiguous (text : List Char)
    (sections : Option (List SectionSpan)) (chunk_size overlap : Nat) :
    (chunk_text text sections chunk_size overlap).map (fun p => p.2.chunk_index) =
      List.range (chunk_text text sections chunk_size overlap).length := by
  rw [List.range_eq_range']
  exact chunkTextAux_indices text chunk_size overlap _ 0

end RagSpec

namespace RagSpec

/-! ### Coverage lemmas for the chunker (C8) -/

/-- A character at an in-range position of the original list is a member of
the corresponding slice. -/
theorem mem_slice_of_getElem? (l : List Char) (a b i : Nat) (c : Char)
    (ha : a ≤ i) (hb : i < b) (hget : l[i]? = some c) : c ∈ slice l a b := by
  have h1 : (slice l a b)[i - a]? = some c := by
    unfold slice
    rw [List.getElem?_take_of_lt (by omega), List.getElem?_drop]
    rw [show a + (i - a) = i by omega]
    exact hget
  exact List.getElem?_mem h1

/-- `dropWhile` keeps every member that fails the predicate. -/
theorem mem_dropWhile_of_neg (p : Char → Bool) (c : Char) :
    ∀ l : List Char, c ∈ l → p c = false → c ∈ l.dropWhile p := by
  intro l
  induction l with
  | nil => intro h; cases h
  | cons x xs ih =>
    intro hmem hp
    by_cases hx : p x
    · rw [List.dropWhile_cons_of_pos hx]
      rcases List.mem_cons.mp hmem with heq | htl
      · subst heq; rw [hx] at hp; cases hp
      · exact ih htl hp
    · rw [List.dropWhile_cons_of_neg hx]
      exact hmem

/-- `strip` keeps every non-whitespace member. -/
theorem mem_strip (l : List Char) (c : Char) (hmem : c ∈ l)
    (hsp : isPySpace c = false) : c ∈ strip l := by
  unfold strip
  rw [List.mem_reverse]
  apply mem_dropWhile_of_neg _ _ _ _ hsp
  rw [List.mem_reverse]
  exact mem_dropWhile_of_neg _ _ _ hmem hsp

/-- The sentence extension never shrinks the window. -/
theorem le_extendToSentence (stext : List Char) (ce : Nat) :
    ce ≤ extendToSentence stext ce := by
  unfold extendToSentence
  cases findSentenceEnd ((stext.drop ce).take 100) with
  | none => exact Nat.le_refl ce
  | some e => exact Nat.le_add_right ce e

/-- The stop cursor never exceeds the section length (for cursors within
the section). -/
theorem chunkLoop_stop_le (stext : List Char) (chunk_size overlap : Nat) :
    ∀ fuel pos, pos ≤ stext.length →
      (chunkLoop stext chunk_size overlap fuel pos).2 ≤ stext.length := by
  intro fuel
  induction fuel with
  | zero => intro pos h; exact h
  | succ n ih =>
    intro pos h
    unfold chunkLoop
    by_cases hlt : pos < stext.length
    · rw [if_pos hlt]
      by_cases hsmall : (strip (slice stext pos
          (if min (pos + chunk_size) stext.length < stext.length then
            extendToSentence stext (min (pos + chunk_size) stext.length)
          else min (pos + chunk_size) stext.length))).length < 100
      · rw [if_pos hsmall]; exact h
      · rw [if_neg hsmall]
        by_cases hdone : stext.length ≤ pos + (chunk_size - overlap)
        · rw [if_pos hdone]
        · rw [if_neg hdone]
          exact ih (pos + (chunk_size - overlap)) (Nat.le_of_lt (Nat.lt_of_not_le hdone))
    · rw [if_neg hlt]

/-- Core coverage invariant of the per-section loop: every non-whitespace
character of the section text at a position between the cursor and the
stop cursor occurs in one of the emitted chunks. -/
theorem chunkLoop_coverage (stext : List Char) (chunk_size overlap : Nat) :
    ∀ fuel pos i c, pos ≤ i →
      i < (chunkLoop stext chunk_size overlap fuel pos).2 →
      stext[i]? = some c → isPySpace c = false →
      ∃ ch ∈ (chunkLoop stext chunk_size overlap fuel pos).1, c ∈ ch := by
  intro fuel
  induction fuel with
  | zero =>
    intro pos i c hpos hstop _ _
    exact absurd hstop (by simp [chunkLoop]; omega)
  | succ n ih =>
    intro pos i c hpos hstop hget hsp
    rw [chunkLoop] at hstop ⊢
    by_cases hlt : pos < stext.length
    · rw [if_pos hlt] at hstop ⊢
      set ce0 := min (pos + chunk_size) stext.length with hce0
      set ce := if ce0 < stext.length then extendToSentence stext ce0 else ce0 with hce
      have hce_ge : ce0 ≤ ce := by
        rw [hce]
        by_cases hc : ce0 < stext.length
        · rw [if_pos hc]; exact le_extendToSentence stext ce0
        · rw [if_neg hc]
      by_cases hsmall : (strip (slice stext pos ce)).length < 100
      · rw [if_pos hsmall] at hstop
        exact absurd hstop (by simp; omega)
      · rw [if_neg hsmall] at hstop ⊢
        by_cases hdone : stext.length ≤ pos + (chunk_size - overlap)
        · rw [if_pos hdone] at hstop ⊢
          -- single final chunk covering [pos, stext.length)
          have hilen : i < stext.length := by simpa using hstop
          have hice : i < ce := by
            have : ce0 = stext.length := by
              rw [hce0]
              have : stext.length ≤ pos + chunk_size := by
                have := Nat.sub_le chunk_size overlap
                omega
              omega
            omega
          refine ⟨strip (slice stext pos ce), by simp, ?_⟩
          exact mem_strip _ _ (mem_slice_of_getElem? stext pos ce i c hpos hice hget) hsp
        · rw [if_neg hdone] at hstop ⊢
          by_cases hnext : pos + (chunk_size - overlap) ≤ i
          · -- covered by the recursive call
            obtain ⟨ch, hch, hc⟩ :=
              ih (pos + (chunk_size - overlap)) i c hnext (by simpa using hstop) hget hsp
            exact ⟨ch, List.mem_cons_of_mem _ hch, hc⟩
          · -- covered by the chunk emitted at this cursor
            have hilen : i < stext.length := by
              have hle := chunkLoop_stop_le stext chunk_size overlap n
                (pos + (chunk_size - overlap)) (Nat.le_of_lt (Nat.lt_of_not_le hdone))
              have : i < (chunkLoop stext chunk_size overlap n
                  (pos + (chunk_size - overlap))).2 := by simpa using hstop
              omega
            have hice : i < ce := by
              have h1 : i < pos + chunk_size := by
                have := Nat.sub_le chunk_size overlap
                omega
              have : i < ce0 := by rw [hce0]; omega
              omega
            refine ⟨strip (slice stext pos ce), List.mem_cons_self _ _, ?_⟩
            exact mem_strip _ _ (mem_slice_of_getElem? stext pos ce i c hpos hice hget) hsp
    · rw [if_neg hlt] at hstop ⊢
      have : i < stext.length := by simpa using hstop
      omega

end RagSpec

namespace RagSpec

/-! ### Lifting coverage to `chunk_text` (C8) -/

/-- Every chunk of one section appears (with some metadata) among the
chunks emitted by the section loop, whatever the running counter. -/
theorem attachMeta_mem (name : List Char) (ch : List Char)
    (cs : List (List Char)) :
    ∀ k, ch ∈ cs → ∃ m, (ch, m) ∈ attachMeta name k cs := by
  induction cs with
  | nil => intro k h; cases h
  | cons c rest ih =>
    intro k h
    rcases List.mem_cons.mp h with heq | htl
    · subst heq
      exact ⟨⟨some name, 0, k, wordCount ch, ch.length⟩, List.mem_cons_self _ _⟩
    · obtain ⟨m, hm⟩ := ih (k + 1) htl
      exact ⟨m, List.mem_cons_of_mem _ hm⟩

theorem chunkTextAux_mem_of_section (text : List Char)
    (chunk_size overlap : Nat) (name : List Char) (s e : Nat)
    (ch : List Char) :
    ∀ (secs : List SectionSpan) (k : Nat), (name, s, e) ∈ secs →
      ch ∈ (chunkSectionTexts (strip (slice text s e)) chunk_size overlap).1 →
      ∃ m, (ch, m) ∈ chunkTextAux text chunk_size overlap secs k := by
  intro secs
  induction secs with
  | nil => intro k h; cases h
  | cons sec rest ih =>
    intro k hmem hch
    obtain ⟨n', s', e'⟩ := sec
    rcases List.mem_cons.mp hmem with heq | htl
    · cases heq
      by_cases hemp : (strip (slice text s e)).isEmpty
      · -- the section text is empty: the loop emits nothing, contradiction
        have hnil : (chunkSectionTexts (strip (slice text s e))
            chunk_size overlap).1 = [] := by
          have hlen : (strip (slice text s e)) = [] := List.isEmpty_iff.mp hemp
          rw [hlen]
          rfl
        rw [hnil] at hch
        cases hch
      · obtain ⟨m, hm⟩ := attachMeta_mem name ch _ k hch
        refine ⟨m, ?_⟩
        simp only [chunkTextAux]
        rw [if_neg hemp]
        exact List.mem_append_left _ hm
    · by_cases hemp : (strip (slice text s' e')).isEmpty
      · obtain ⟨m, hm⟩ := ih k htl hch
        refine ⟨m, ?_⟩
        simp only [chunkTextAux]
        rw [if_pos hemp]
        exact hm
      · obtain ⟨m, hm⟩ := ih
          (k + ((chunkSectionTexts (strip (slice text s' e'))
            chunk_size overlap).1).length) htl hch
        refine ⟨m, ?_⟩
        simp only [chunkTextAux]
        rw [if_neg hemp]
        exact List.mem_append_right _ hm

/-- C8 (amended): the emitted chunks cover each detected section's own
(trimmed) text up to that section's stop cursor — every non-whitespace
character there appears in some emitted chunk text.  What may be absent
from the chunks is exactly: text outside every resolved section (e.g.
before the first detected heading), whitespace trimmed at window edges,
and each section's trailing remainder past the stop cursor (the dropped
fragment whose trimmed window fell below 100 characters). -/
theorem chunk_text_covers_section_text (text : List Char)
    (sections : Option (List SectionSpan)) (chunk_size overlap : Nat)
    (name : List Char) (s e : Nat)
    (hsec : (name, s, e) ∈ resolvedSections text sections)
    (i : Nat) (c : Char)
    (hstop : i < (chunkSectionTexts (strip (slice text s e)) chunk_size overlap).2)
    (hget : (strip (slice text s e))[i]? = some c)
    (hsp : isPySpace c = false) :
    ∃ p ∈ chunk_text text sections chunk_size overlap, c ∈ p.1 := by
  obtain ⟨ch, hch, hc⟩ := chunkLoop_coverage (strip (slice text s e))
    chunk_size overlap ((strip (slice text s e)).length + 1) 0 i c
    (Nat.zero_le i) hstop hget hsp
  obtain ⟨m, hm⟩ := chunkTextAux_mem_of_section text chunk_size overlap
    name s e ch (resolvedSections text sections) 0 hsec hch
  exact ⟨(ch, m), hm, hc⟩

set_option maxRecDepth 8000 in
/-- C8 witness: for the 120-character all-`'a'` document with no section
list, the character `'a'` at position 0 (below the stop cursor) appears in
an emitted chunk. -/
theorem chunk_text_covers_section_text_witness :
    ∃ p ∈ chunk_text (List.replicate 120 'a') none 800 100, 'a' ∈ p.1 :=
  chunk_text_covers_section_text (List.replicate 120 'a') none 800 100
    "Document".toList 0 120 (by decide) 0 'a' (by decide) (by decide) (by decide)

end RagSpec

namespace RagSpec

/-! ### `detect_sections` (app/services/ingestion/pdf_parser.py)

The four heading regexes are evaluated with `re.MULTILINE`: every match
starts at a line start (`^`) and each alternative ends at a line end
(`$`).  Each pattern is implemented directly, following the regex engine's
leftmost-position / first-alternative / greedy-with-backtracking
semantics, which for these patterns resolves as follows: the `\d+`, `\s+`,
`(?:\.\d+)*` and `\.?` prefixes are effectively deterministic (greedy,
with no viable backtracking alternatives), `[^\n]{0,100}$` matches iff at
most 100 characters remain on the line (consuming all of them), and
`[A-Z\s]{10,100}$` takes the largest repetition count whose end lands on a
line end (note `\s` includes `\n`, so this alternative can span lines). -/

/-- Characters remaining on the current line (`[^\n]*` length). -/
def lineRemainder (l : List Char) : Nat :=
  (l.takeWhile (fun c => c ≠ '\n')).length

/-- Length consumed by `(?:\.\d+)*` (greedy, fuel-bounded). -/
def dotGroupsLen : Nat → List Char → Nat
  | 0, _ => 0
  | fuel + 1, l =>
    match l with
    | '.' :: c :: rest =>
      if isDigit09 c then
        let ds := (c :: rest).takeWhile isDigit09
        1 + ds.length + dotGroupsLen fuel ((c :: rest).drop ds.length)
      else 0
    | _ => 0

/-- Pattern `^(\d+(?:\.\d+)*\.?\s+[A-Z][^\n]{0,100})$`: returns the match
length. -/
def matchNumbered (l : List Char) : Option Nat :=
  let ds := l.takeWhile isDigit09
  if ds.isEmpty then none
  else
    let r1 := l.drop ds.length
    let g := dotGroupsLen r1.length r1
    let r2 := r1.drop g
    let dot := if r2.head? = some '.' then 1 else 0
    let r3 := r2.drop dot
    let ws := r3.takeWhile isPySpace
    if ws.isEmpty then none
    else
      match r3.drop ws.length with
      | c :: r5 =>
        if isUpperAZ c then
          let rem := lineRemainder r5
          if rem ≤ 100 then some (ds.length + g + dot + ws.length + 1 + rem)
          else none
        else none
      | [] => none

/-- Pattern `^(Section\s+\d+:\s+[A-Z][^\n]{0,100})$`. -/
def matchSectionHeading (l : List Char) : Option Nat :=
  if l.take 7 = "Section".toList then
    let r1 := l.drop 7
    let ws := r1.takeWhile isPySpace
    if ws.isEmpty then none
    else
      let r2 := r1.drop ws.length
      let ds := r2.takeWhile isDigit09
      if ds.isEmpty then none
      else
        match r2.drop ds.length with
        | ':' :: r4 =>
          let ws2 := r4.takeWhile isPySpace
          if ws2.isEmpty then none
          else
            match r4.drop ws2.length with
            | c :: r6 =>
              if isUpperAZ c then
                let rem := lineRemainder r6
                if rem ≤ 100 then
                  some (7 + ws.length + ds.length + 1 + ws2.length + 1 + rem)
                else none
              else none
            | [] => none
        | _ => none
  else none

/-- Pattern `^(#{1,3}\s+[A-Z][^\n]{0,100})$` (four or more `#` cannot
match: no spare whitespace after any 1–3 of them). -/
def matchMarkdown (l : List Char) : Option Nat :=
  let hs := l.takeWhile (fun c => c = '#')
  if hs.length = 0 || 3 < hs.length then none
  else
    let r1 := l.drop hs.length
    let ws := r1.takeWhile isPySpace
    if ws.isEmpty then none
    else
      match r1.drop ws.length with
      | c :: r3 =>
        if isUpperAZ c then
          let rem := lineRemainder r3
          if rem ≤ 100 then some (hs.length + ws.length + 1 + rem) else none
        else none
      | [] => none

/-- `$` holds: at end of text or just before a newline. -/
def atEol : List Char → Bool
  | [] => true
  | c :: _ => c = '\n'

/-- Largest `k ≤ bound` with `10 ≤ k` such that position `1 + k` of `l` is
at a line end (the greedy repetition count of `[A-Z\s]{10,100}` before
`$`). -/
def findCapsLen (l : List Char) : Nat → Option Nat
  | 0 => none
  | k + 1 =>
    if k + 1 < 10 then none
    else if atEol (l.drop (1 + (k + 1))) then some (k + 1)
    else findCapsLen l k

/-- Pattern `^([A-Z][A-Z\s]{10,100})$`. -/
def matchCaps (l : List Char) : Option Nat :=
  match l with
  | c :: rest =>
    if isUpperAZ c then
      let run := (rest.takeWhile (fun d => isUpperAZ d || isPySpace d)).length
      match findCapsLen l (min run 100) with
      | some k => some (1 + k)
      | none => none
    else none
  | [] => none

/-- The alternation, tried in the source's pattern order. -/
def tryMatch (l : List Char) : Option Nat :=
  match matchNumbered l with
  | some n => some n
  | none =>
    match matchSectionHeading l with
    | some n => some n
    | none =>
      match matchMarkdown l with
      | some n => some n
      | none => matchCaps l

/-- Whether the position just after a match of length `len` of `l` begins a
new line (the last matched character was a newline — possible only for the
ALL-CAPS alternative). -/
def bolAfterMatch (l : List Char) (len : Nat) : Bool :=
  match (l.take len).getLast? with
  | some '\n' => true
  | _ => false

/-- `re.finditer` over the whole text: scan positions left to right, try
the alternation at each line start, and resume after each (non-empty)
match.  `p` is the absolute position of the suffix `l`; `bol` says whether
`p` is a line start. -/
def scanMatches : Nat → List Char → Nat → Bool → List (Nat × Nat)
  | 0, _, _, _ => []
  | _ + 1, [], _, _ => []
  | fuel + 1, c :: rest, p, bol =>
    if bol then
      match tryMatch (c :: rest) with
      | some len =>
        (p, len) ::
          scanMatches fuel ((c :: rest).drop len) (p + len)
            (bolAfterMatch (c :: rest) len)
      | none => scanMatches fuel rest (p + 1) (c = '\n')
    else
      scanMatches fuel rest (p + 1) (c = '\n')

/-- `match.group(0).strip()` followed by
`re.sub(r"^#{1,3}\s+", "", section_name)` and the final `.strip()`. -/
def cleanSectionName (raw : List Char) : List Char :=
  let n1 := strip raw
  let hs := n1.takeWhile (fun c => c = '#')
  let n2 :=
    if 1 ≤ hs.length ∧ hs.length ≤ 3 then
      let r := n1.drop hs.length
      let ws := r.takeWhile isPySpace
      if ws.isEmpty then n1 else r.drop ws.length
    else n1
  strip n2

/-- The end-position fixup loop: each section ends where the next begins;
the last ends at the text length. -/
def assignEnds : List (List Char × Nat) → Nat → List SectionSpan
  | [], _ => []
  | [(n, s)], total => [(n, s, total)]
  | (n, s) :: (m, s2) :: rest, total =>
    (n, s, s2) :: assignEnds ((m, s2) :: rest) total

/-- `detect_sections(text)`. -/
def detect_sections (text : List Char) : List SectionSpan :=
  let ms := scanMatches (text.length + 1) text 0 true
  let named := ms.map (fun pr =>
    (cleanSectionName (slice text pr.1 (pr.1 + pr.2)), pr.1))
  assignEnds named text.length

end RagSpec

namespace RagSpec

/-! ### Claim theorems: chunk coverage counterexample (C8) -/

/-- A document with a 150-character preamble before its only detected
heading: 150 `'a'`s, a newline, the ALL-CAPS heading
`SAFEGUARDING POLICY PROCEDURES`, a newline, then 150 `'b'`s. -/
def c8text : List Char :=
  List.replicate 150 'a' ++ ['\n'] ++ "SAFEGUARDING POLICY PROCEDURES".toList ++
    ['\n'] ++ List.replicate 150 'b'

set_option maxRecDepth 100000 in
/-- C8 counterexample: on `c8text` the detector finds a single section
starting at position 151, and `chunk_text` (with the pipeline's
`chunk_size=800`, `overlap=100`) emits exactly one chunk, which contains no
`'a'` — although `'a'` occurs in the source text.  The 150 dropped `'a'`s
precede the only section, are not a *trailing* fragment shorter than 100
characters, and (with a single emitted chunk) there are no inter-chunk
overlap regions, so the claimed coverage fails. -/
theorem chunk_text_drops_preamble :
    'a' ∈ c8text ∧
    detect_sections c8text =
      [("SAFEGUARDING POLICY PROCEDURES".toList, 151, 332)] ∧
    (chunk_text c8text (some (detect_sections c8text)) 800 100).length = 1 ∧
    (chunk_text c8text (some (detect_sections c8text)) 800 100).all
      (fun p => !(p.1.contains 'a')) = true := by
  refine ⟨?_, ?_, ?_, ?_⟩
  · decide
  · rfl
  · rfl
  · rfl

end RagSpec

namespace RagSpec

/-! ### `PolicyIngestionService.ingest_policy`
(app/services/ingestion/policy_ingestion.py)

The metadata store (SQLAlchemy `AsyncSession`) is modelled as explicit
state: `committed` rows plus `staged` (added but uncommitted) rows.
`flush` assigns the new policy id without committing (modelled by
`freshId`); `commit` moves all staged rows to `committed`; `rollback`
discards staged rows.  Collaborators are injected as in the service
constructor: `embedFn` models `self.gemini.generate_embeddings_batch`,
`upsertFn` models `self.qdrant.upsert_vectors`, `extractRes` the outcome
of `extract_text_from_pdf`, and `commitOk` whether `self.db.commit()`
succeeds.  `cleanFn` stands for the pure text normalization `clean_text`
(a regex cleanup whose content no claim depends on); section detection and
chunking are the embedded `detect_sections` / `chunk_text` with the
pipeline's fixed `chunk_size=800`, `overlap=100`. -/

/-- A `Policy` ORM row. -/
structure PolicyRow where
  id : Nat
  name : String
  version : String
  file_path : String
  uploaded_by : Option String
  effective_from : Nat
  effective_to : Option Nat
  status : String
  tags : List (String × String)
deriving DecidableEq, Repr

/-- A `PolicyChunk` ORM row (its JSON metadata flattened). -/
structure ChunkRow where
  policy_id : Nat
  chunk_text : List Char
  chunk_index : Nat
  section_name : Option (List Char)
  embedding_id : String
  word_count : Nat
  char_count : Nat
  page_number : Nat
deriving DecidableEq, Repr

inductive Row where
  | policyRow (p : PolicyRow)
  | chunkRow (c : ChunkRow)
deriving DecidableEq, Repr

/-- The metadata-store session: durable rows plus staged, uncommitted
additions. -/
structure Session where
  committed : List Row
  staged : List Row
deriving DecidableEq, Repr

def Session.add (db : Session) (r : Row) : Session :=
  ⟨db.committed, db.staged ++ [r]⟩

def Session.commitAll (db : Session) : Session :=
  ⟨db.committed ++ db.staged, []⟩

def Session.rollback (db : Session) : Session :=
  ⟨db.committed, []⟩

/-- The id assigned to the policy row at `flush` (any deterministic fresh
value serves the model). -/
def Session.freshId (db : Session) : Nat :=
  db.committed.length + db.staged.length

/-- The failure classes of `ingest_policy` (`ValueError`s raised by its own
checks and exceptions propagated from collaborators). -/
inductive IngestErr where
  | extraction
  | emptyDocument
  | noChunks
  | embedding
  | cardinality
  | upsert
  | missingEmbeddingId
  | commitFailure
deriving DecidableEq, Repr

/-- One metadata dict passed to `upsert_vectors`. -/
structure UpsertMeta where
  word_count : Nat
  char_count : Nat
  policy_name : String
  policy_version : String
deriving DecidableEq, Repr

/-- The `for i, (chunk_text, chunk_metadata) in enumerate(chunks)` loop
building `PolicyChunk` rows; `embedding_ids[i]` raises `IndexError`
(`none`) if the id list is shorter than the chunk list. -/
def buildChunkRows (pid : Nat) :
    List (List Char × ChunkMetadata) → List String → Option (List Row)
  | [], _ => some []
  | _ :: _, [] => none
  | (ct, cm) :: cs, eid :: eids =>
    match buildChunkRows pid cs eids with
    | none => none
    | some rs =>
      some (Row.chunkRow ⟨pid, ct, cm.chunk_index, cm.section_name, eid,
        cm.word_count, cm.char_count, cm.page_number⟩ :: rs)

/-- `PolicyIngestionService.ingest_policy`. -/
def ingest_policy
    (cleanFn : List Char → List Char)
    (embedFn : List (List Char) → Except Unit (List (List ℚ)))
    (upsertFn : List (List ℚ) → Nat → List (List Char) → List Nat →
      List (Option (List Char)) → List UpsertMeta → Except Unit (List String))
    (commitOk : Bool)
    (extractRes : Except Unit (List Char))
    (policy_name version : String) (effective_from : Nat)
    (uploaded_by : Option String) (effective_to : Option Nat)
    (tags : List (String × String)) (file_path : Option String)
    (db : Session) : Except IngestErr (PolicyRow × Nat) × Session :=
  match extractRes with
  | Except.error _ => (Except.error IngestErr.extraction, db.rollback)
  | Except.ok full_text =>
    if (strip full_text).isEmpty then
      (Except.error IngestErr.emptyDocument, db.rollback)
    else
      let cleaned_text := cleanFn full_text
      let sections := detect_sections cleaned_text
      let chunks := chunk_text cleaned_text (some sections) 800 100
      if chunks.isEmpty then
        (Except.error IngestErr.noChunks, db.rollback)
      else
        let chunk_texts := chunks.map (fun c => c.1)
        match embedFn chunk_texts with
        | Except.error _ => (Except.error IngestErr.embedding, db.rollback)
        | Except.ok embeddings =>
          if embeddings.length ≠ chunks.length then
            (Except.error IngestErr.cardinality, db.rollback)
          else
            let policy : PolicyRow :=
              ⟨db.freshId, policy_name, version,
                (match file_path with
                  | some fp => fp
                  | none => "policies/" ++ policy_name ++ "_" ++ version ++ ".pdf"),
                uploaded_by, effective_from, effective_to, "active", tags⟩
            let db1 := db.add (Row.policyRow policy)
            let chunk_indices := chunks.map (fun c => c.2.chunk_index)
            let section_names := chunks.map (fun c => c.2.section_name)
            let metadatas := chunks.map (fun c =>
              (⟨c.2.word_count, c.2.char_count, policy_name, version⟩ : UpsertMeta))
            match upsertFn embeddings policy.id chunk_texts chunk_indices
                section_names metadatas with
            | Except.error _ => (Except.error IngestErr.upsert, db1.rollback)
            | Except.ok embedding_ids =>
              match buildChunkRows policy.id chunks embedding_ids with
              | none => (Except.error IngestErr.missingEmbeddingId, db1.rollback)
              | some crows =>
                let db2 := crows.foldl Session.add db1
                if commitOk then
                  (Except.ok (policy, chunks.length), db2.commitAll)
                else
                  (Except.error IngestErr.commitFailure, db2.rollback)

end RagSpec

namespace RagSpec

/-! ### Claim theorems: transactional ingestion (C9) -/

theorem foldl_add_committed (rows : List Row) :
    ∀ db : Session, (rows.foldl Session.add db).committed = db.committed := by
  induction rows with
  | nil => intro db; rfl
  | cons r rest ih => intro db; exact ih (db.add r)

theorem foldl_add_staged (rows : List Row) :
    ∀ db : Session, (rows.foldl Session.add db).staged = db.staged ++ rows := by
  induction rows with
  | nil => intro db; simp [List.foldl]
  | cons r rest ih =>
    intro db
    rw [List.foldl_cons, ih (db.add r)]
    simp [Session.add]

theorem buildChunkRows_spec (pid : Nat) :
    ∀ (cs : List (List Char × ChunkMetadata)) (ids : List String)
      (rs : List Row), buildChunkRows pid cs ids = some rs →
      rs.length = cs.length ∧ ∀ r ∈ rs, ∃ c, r = Row.chunkRow c := by
  intro cs
  induction cs with
  | nil =>
    intro ids rs h
    cases ids with
    | nil =>
      simp [buildChunkRows] at h
      subst h
      exact ⟨rfl, by intro r hr; cases hr⟩
    | cons i it =>
      simp [buildChunkRows] at h
      subst h
      exact ⟨rfl, by intro r hr; cases hr⟩
  | cons c ct ih =>
    intro ids rs h
    cases ids with
    | nil => cases h
    | cons i it =>
      obtain ⟨ctext, cmeta⟩ := c
      unfold buildChunkRows at h
      cases hrec : buildChunkRows pid ct it with
      | none => rw [hrec] at h; cases h
      | some rs' =>
        rw [hrec] at h
        obtain ⟨hl, hall⟩ := ih it rs' hrec
        injection h with h'
        subst h'
        constructor
        · simp [hl]
        · intro r hr
          rcases List.mem_cons.mp hr with heq | htl
          · exact ⟨_, heq⟩
          · exact hall r htl

/-- C9: ingestion is transactional at the metadata-store level.  For every
collaborator behaviour and every session with no pending staged rows:
if the call fails (any error, including failures after the `Policy` row
was provisionally created), the committed store is unchanged and no
staged rows remain — no partial `Policy` or `PolicyChunk` rows; if it
succeeds, the committed store grows by exactly the new `Policy` row
followed by one `PolicyChunk` row per emitted chunk. -/
theorem ingest_policy_transactional
    (cleanFn : List Char → List Char)
    (embedFn : List (List Char) → Except Unit (List (List ℚ)))
    (upsertFn : List (List ℚ) → Nat → List (List Char) → List Nat →
      List (Option (List Char)) → List UpsertMeta → Except Unit (List String))
    (commitOk : Bool) (extractRes : Except Unit (List Char))
    (policy_name version : String) (effective_from : Nat)
    (uploaded_by : Option String) (effective_to : Option Nat)
    (tags : List (String × String)) (file_path : Option String)
    (db : Session) (hstaged : db.staged = []) :
    (∀ e, (ingest_policy cleanFn embedFn upsertFn commitOk extractRes
        policy_name version effective_from uploaded_by effective_to tags
        file_path db).1 = Except.error e →
      (ingest_policy cleanFn embedFn upsertFn commitOk extractRes
        policy_name version effective_from uploaded_by effective_to tags
        file_path db).2 = ⟨db.committed, []⟩) ∧
    (∀ p n, (ingest_policy cleanFn embedFn upsertFn commitOk extractRes
        policy_name version effective_from uploaded_by effective_to tags
        file_path db).1 = Except.ok (p, n) →
      ∃ crows : List Row,
        (ingest_policy cleanFn embedFn upsertFn commitOk extractRes
          policy_name version effective_from uploaded_by effective_to tags
          file_path db).2 = ⟨db.committed ++ (Row.policyRow p :: crows), []⟩ ∧
        crows.length = n ∧ ∀ r ∈ crows, ∃ c, r = Row.chunkRow c) := by
  cases extractRes with
  | error u => exact ⟨fun e _ => rfl, fun p n h => by cases h⟩
  | ok full_text =>
    by_cases hempty : (strip full_text).isEmpty
    · refine ⟨fun e _ => ?_, fun p n h => ?_⟩
      · simp only [ingest_policy, Bool.false_eq_true, if_true, if_false, hempty, if_true]
        try rfl
      · simp only [ingest_policy, Bool.false_eq_true, if_true, if_false, hempty, if_true] at h
        cases h
    · by_cases hchunks : (chunk_text (cleanFn full_text)
          (some (detect_sections (cleanFn full_text))) 800 100).isEmpty
      · refine ⟨fun e _ => ?_, fun p n h => ?_⟩
        · simp only [ingest_policy, Bool.false_eq_true, if_true, if_false, hempty, hchunks, if_true, if_false]
          try rfl
        · simp only [ingest_policy, Bool.false_eq_true, if_true, if_false, hempty, hchunks, if_true, if_false] at h
          cases h
      · cases hemb : embedFn ((chunk_text (cleanFn full_text)
            (some (detect_sections (cleanFn full_text))) 800 100).map
            (fun c => c.1)) with
        | error u =>
          refine ⟨fun e _ => ?_, fun p n h => ?_⟩
          · simp only [ingest_policy, Bool.false_eq_true, if_true, if_false, hempty, hchunks, hemb, if_false]
            try rfl
          · simp only [ingest_policy, Bool.false_eq_true, if_true, if_false, hempty, hchunks, hemb, if_false] at h
            cases h
        | ok embeddings =>
          by_cases hcard : embeddings.length ≠ (chunk_text (cleanFn full_text)
              (some (detect_sections (cleanFn full_text))) 800 100).length
          · refine ⟨fun e _ => ?_, fun p n h => ?_⟩
            · simp only [ingest_policy, Bool.false_eq_true, if_true, if_false, hempty, hchunks, hemb,
                if_true, if_false]
              rw [if_pos hcard]
              rfl
            · simp only [ingest_policy, Bool.false_eq_true, if_true, if_false, hempty, hchunks, hemb,
                if_true, if_false] at h
              rw [if_pos hcard] at h
              cases h
          · cases hup : upsertFn embeddings db.freshId
                ((chunk_text (cleanFn full_text)
                  (some (detect_sections (cleanFn full_text))) 800 100).map
                  (fun c => c.1))
                ((chunk_text (cleanFn full_text)
                  (some (detect_sections (cleanFn full_text))) 800 100).map
                  (fun c => c.2.chunk_index))
                ((chunk_text (cleanFn full_text)
                  (some (detect_sections (cleanFn full_text))) 800 100).map
                  (fun c => c.2.section_name))
                ((chunk_text (cleanFn full_text)
                  (some (detect_sections (cleanFn full_text))) 800 100).map
                  (fun c =>
                    (⟨c.2.word_count, c.2.char_count, policy_name, version⟩ :
                      UpsertMeta))) with
            | error u =>
              refine ⟨fun e _ => ?_, fun p n h => ?_⟩
              · simp only [ingest_policy, Bool.false_eq_true, if_true, if_false, hempty, hchunks, hemb, hcard, hup,
                  if_false]
                try rfl
              · simp only [ingest_policy, Bool.false_eq_true, if_true, if_false, hempty, hchunks, hemb, hcard, hup,
                  if_false] at h
                cases h
            | ok embedding_ids =>
              cases hrows : buildChunkRows db.freshId
                  (chunk_text (cleanFn full_text)
                    (some (detect_sections (cleanFn full_text))) 800 100)
                  embedding_ids with
              | none =>
                refine ⟨fun e _ => ?_, fun p n h => ?_⟩
                · simp only [ingest_policy, Bool.false_eq_true, if_true, if_false, hempty, hchunks, hemb, hcard, hup,
                    hrows, if_false]
                  try rfl
                · simp only [ingest_policy, Bool.false_eq_true, if_true, if_false, hempty, hchunks, hemb, hcard, hup,
                    hrows, if_false] at h
                  cases h
              | some crows =>
                obtain ⟨hlen, hall⟩ := buildChunkRows_spec db.freshId _ _ _ hrows
                cases commitOk with
                | false =>
                  refine ⟨fun e _ => ?_, fun p n h => ?_⟩
                  · simp only [ingest_policy, Bool.false_eq_true, if_true, if_false, hempty, hchunks, hemb, hcard, hup,
                      hrows, if_false, Bool.false_eq_true]
                    show (crows.foldl Session.add _).rollback = _
                    unfold Session.rollback
                    rw [foldl_add_committed]
                    rfl
                  · simp only [ingest_policy, Bool.false_eq_true, if_true, if_false, hempty, hchunks, hemb, hcard, hup,
                      hrows, if_false, Bool.false_eq_true] at h
                    cases h
                | true =>
                  refine ⟨fun e h => ?_, fun p n h => ?_⟩
                  · simp only [ingest_policy, Bool.false_eq_true, if_true, if_false, hempty, hchunks, hemb, hcard, hup,
                      hrows, if_true] at h
                    cases h
                  · simp only [ingest_policy, Bool.false_eq_true, if_true, if_false, hempty, hchunks, hemb, hcard, hup,
                      hrows, if_true] at h
                    injection h with h'
                    injection h' with hp hn
                    refine ⟨crows, ?_, ?_, hall⟩
                    · simp only [ingest_policy, Bool.false_eq_true, if_true, if_false, hempty, hchunks, hemb, hcard,
                        hup, hrows, if_true]
                      show (crows.foldl Session.add _).commitAll = _
                      unfold Session.commitAll
                      rw [foldl_add_committed, foldl_add_staged]
                      simp only [Session.add, hstaged, List.nil_append,
                        List.singleton_append]
                      rw [← hp]
                    · rw [← hn, hlen]
end RagSpec

namespace RagSpec

set_option maxRecDepth 100000 in
/-- C9 witness: a concrete ingest of a 120-character document whose
`commit` fails leaves the committed metadata store unchanged (empty), by
the transactionality theorem. -/
theorem ingest_policy_transactional_witness :
    (ingest_policy (fun t => t)
      (fun ts => Except.ok (ts.map (fun _ => [(1 : ℚ)])))
      (fun _ _ _ _ _ _ => Except.ok ["emb-0"]) false
      (Except.ok (List.replicate 120 'a')) "P" "v1" 0 none none [] none
      ⟨[], []⟩).2 = ⟨[], []⟩ :=
  (ingest_policy_transactional (fun t => t)
      (fun ts => Except.ok (ts.map (fun _ => [(1 : ℚ)])))
      (fun _ _ _ _ _ _ => Except.ok ["emb-0"]) false
      (Except.ok (List.replicate 120 'a')) "P" "v1" 0 none none [] none
      ⟨[], []⟩ rfl).1 IngestErr.commitFailure (by rfl)

end RagSpec
